import Mathlib

/-!
Shallow embedding of the mario_online repository's core simulation code
(physics.js, player.js, game.js, level.js, enemies.js, collectibles.js,
items.js), with theorems settling the specification's claims about it.

Positions and velocities are embedded as rationals (the source uses JS
numbers only through +, -, *, /, comparisons, Math.floor and Math.round
in the fragments modelled here).  Definitions come first, theorems after.
-/

namespace MarioOnline

/-! ### constants.js -/

/-- constants.js: `TILE = 32` (pixels per tile). -/
def TILE : ℚ := 32

/-- constants.js: tile ids from the `T` table (AIR 0, GROUND 1, BRICK 2,
QBLOCK 3, QUSED 4, pipes 5-8, clouds 9-11, SKY 12, SOLID_INVISIBLE 13). -/
def T_AIR : ℕ := 0
def T_GROUND : ℕ := 1
def T_BRICK : ℕ := 2
def T_QBLOCK : ℕ := 3
def T_QUSED : ℕ := 4

/-- constants.js: `SOLID_TILES = new Set([GROUND, BRICK, QBLOCK, QUSED,
PIPE_TL, PIPE_TR, PIPE_BL, PIPE_BR, SOLID_INVISIBLE])`. -/
def SOLID_TILES : List ℕ := [1, 2, 3, 4, 5, 6, 7, 8, 13]

/-- Membership in `SOLID_TILES` (the `SOLID_TILES.has(tile)` test). -/
def isSolidTile (t : ℕ) : Bool := SOLID_TILES.contains t

/-! ### level.js: the tile grid -/

/-- List lookup with a default, as JS array indexing on a fixed-width
`Uint8Array` row (missing entries read as 0). -/
def nthD {α : Type} : List α → ℕ → α → α
  | [], _, d => d
  | a :: _, 0, _ => a
  | _ :: t, n + 1, d => nthD t n d

/-- In-place JS array element assignment `l[n] = v` (no-op out of range,
which is unreachable in the source paths modelled). -/
def setNth {α : Type} : List α → ℕ → α → List α
  | [], _, _ => []
  | _ :: t, 0, v => v :: t
  | a :: t, n + 1, v => a :: setNth t n v

/-- Contents of a question block recorded in `Level.blockItems`
(level.js: SPAWN.MUSHROOM or SPAWN.FLOWER). -/
inductive SpawnItem where
  | mushroom
  | flower
deriving DecidableEq, Repr

/-- The tile grid plus the per-block contents map of level.js. -/
structure LevelState where
  tiles : List (List ℕ)
  blockItems : List ((ℕ × ℕ) × SpawnItem)
deriving DecidableEq, Repr

/-- level.js `Level.get(col, row)`: AIR outside the grid, else
`tiles[row][col]`. -/
def LevelState.get (L : LevelState) (col row : ℤ) : ℕ :=
  if row < 0 ∨ col < 0 then 0
  else nthD (nthD L.tiles row.toNat []) col.toNat 0

/-! ### physics.js -/

/-- The movable-entity shape used by `resolveEntity` (position, velocity,
bounding box, per-tick collision flags). -/
structure Ent where
  x : ℚ
  y : ℚ
  vx : ℚ
  vy : ℚ
  w : ℚ
  h : ℚ
  onGround : Bool
  hitCeiling : Bool
  hitWall : Bool
deriving DecidableEq, Repr

/-- The `axis` argument of `resolveAxis`. -/
inductive Axis where
  | x
  | y
deriving DecidableEq, Repr

/-- Integer interval as a list, used below for the `resolveAxis` loop
bounds (`for (let row = rowMin; row <= rowMax; row++)`). -/
def intRange (a b : ℤ) : List ℤ :=
  (List.range (b + 1 - a).toNat).map (fun (i : ℕ) => a + (i : ℤ))

/-- The scan bounds `colMin = Math.floor(ent.x / TILE)` and friends, with
the source's `- 0.01` inset on the far edges. -/
def scanColMin (e : Ent) : ℤ := ⌊e.x / TILE⌋
def scanColMax (e : Ent) : ℤ := ⌊(e.x + e.w - 1 / 100) / TILE⌋
def scanRowMin (e : Ent) : ℤ := ⌊e.y / TILE⌋
def scanRowMax (e : Ent) : ℤ := ⌊(e.y + e.h - 1 / 100) / TILE⌋

/-- The grid cells scanned by `resolveAxis`: rows `rowMin..rowMax` outer,
columns `colMin..colMax` inner, bounds computed once from the entity's
current box. -/
def scanCells (e : Ent) : List (ℤ × ℤ) :=
  (intRange (scanRowMin e) (scanRowMax e)).flatMap
    (fun row => (intRange (scanColMin e) (scanColMax e)).map (fun col => (col, row)))

/-- Body of the `resolveAxis` double loop for one cell: skip non-solid
tiles; on the x axis snap to the tile boundary on the approach side, zero
`vx`, flag `hitWall`; on the y axis snap atop the tile / below the tile,
zero `vy`, flag `onGround` / `hitCeiling`, recording ceiling hits. -/
def axisStep (L : LevelState) (axis : Axis) (p : Ent × List (ℤ × ℤ)) (cell : ℤ × ℤ) :
    Ent × List (ℤ × ℤ) :=
  let col := cell.1
  let row := cell.2
  let ent := p.1
  if ¬ isSolidTile (L.get col row) then p
  else
    let tx : ℚ := col * TILE
    let ty : ℚ := row * TILE
    match axis with
    | Axis.x =>
      let ent1 := if ent.vx > 0 then { ent with x := tx - ent.w }
                  else if ent.vx < 0 then { ent with x := tx + TILE }
                  else ent
      ({ ent1 with vx := 0, hitWall := true }, p.2)
    | Axis.y =>
      if ent.vy > 0 then ({ ent with y := ty - ent.h, vy := 0, onGround := true }, p.2)
      else if ent.vy < 0 then
        ({ ent with y := ty + TILE, vy := 0, hitCeiling := true }, p.2 ++ [(col, row)])
      else p

/-- physics.js `resolveAxis(ent, level, axis, blocksHit)` (the cell-scan
bounds are fixed at entry, as in the source). -/
def resolveAxis (L : LevelState) (axis : Axis) (p : Ent × List (ℤ × ℤ)) : Ent × List (ℤ × ℤ) :=
  (scanCells p.1).foldl (axisStep L axis) p

/-- physics.js `resolveEntity(entity, level)`: while moving upward resolve
vertical before horizontal, otherwise horizontal first; returns the updated
entity and the blocks hit from below. -/
def resolveEntity (L : LevelState) (e : Ent) : Ent × List (ℤ × ℤ) :=
  if e.vy < 0 then
    let p1 := resolveAxis L Axis.y ({ e with y := e.y + e.vy }, [])
    resolveAxis L Axis.x ({ p1.1 with x := p1.1.x + p1.1.vx }, p1.2)
  else
    let p1 := resolveAxis L Axis.x ({ e with x := e.x + e.vx }, [])
    resolveAxis L Axis.y ({ p1.1 with y := p1.1.y + p1.1.vy }, p1.2)

/-- Plain axis-aligned box, the shape consumed by `overlaps`. -/
structure Box where
  x : ℚ
  y : ℚ
  w : ℚ
  h : ℚ
deriving DecidableEq, Repr

/-- physics.js `overlaps(a, b)`: plain AABB intersection test. -/
def overlaps (a b : Box) : Bool :=
  decide (a.x < b.x + b.w) && decide (a.x + a.w > b.x) &&
  decide (a.y < b.y + b.h) && decide (a.y + a.h > b.y)

/-- Box plus vertical velocity, the shape consumed by `stompCheck`. -/
structure MoverBox where
  x : ℚ
  y : ℚ
  w : ℚ
  h : ℚ
  vy : ℚ
deriving DecidableEq, Repr

/-- physics.js `stompCheck(player, enemy)`: attacker falling, bottom in the
defender's top half, horizontal overlap beyond a 2 px margin. -/
def stompCheck (player enemy : MoverBox) : Bool :=
  if player.vy ≤ 0 then false
  else
    let playerBottom := player.y + player.h
    let enemyMid := enemy.y + enemy.h * (1 / 2)
    decide (playerBottom ≤ enemyMid) &&
    decide (player.x + player.w > enemy.x + 2) &&
    decide (player.x < enemy.x + enemy.w - 2)

/-! ### items.js: item kinds, ammo, inventory slots -/

/-- items.js `ITEM`: the weapon kinds. -/
inductive ItemType where
  | machineGun
  | rocket
  | grenade
  | grapple
  | sword
  | pencil
deriving DecidableEq, Repr

/-- An ammo count: a finite number of remaining uses or `Infinity`. -/
inductive Ammo where
  | fin (n : ℤ)
  | inf
deriving DecidableEq, Repr

/-- items.js `ITEM_MAX_AMMO`: machine gun 40, rocket 5, grenade 4,
grapple / sword / pencil Infinity. -/
def ITEM_MAX_AMMO : ItemType → Ammo
  | ItemType.machineGun => Ammo.fin 40
  | ItemType.rocket => Ammo.fin 5
  | ItemType.grenade => Ammo.fin 4
  | ItemType.grapple => Ammo.inf
  | ItemType.sword => Ammo.inf
  | ItemType.pencil => Ammo.inf

/-- items.js `InventorySlot`: a kind plus a remaining-uses counter. -/
structure InventorySlot where
  itype : ItemType
  ammo : Ammo
deriving DecidableEq, Repr

/-- Constructor `new InventorySlot(type)`: ammo starts at
`ITEM_MAX_AMMO[type]`. -/
def mkInventorySlot (t : ItemType) : InventorySlot :=
  { itype := t, ammo := ITEM_MAX_AMMO t }

/-! ### player.js -/

/-- constants.js `POWER`: SMALL 0, BIG 1, FIRE 2. -/
def POWER_SMALL : ℕ := 0
def POWER_BIG : ℕ := 1
def POWER_FIRE : ℕ := 2

/-- constants.js `PSTATE`: the player's movement-state tag. -/
inductive PState where
  | idle
  | walk
  | run
  | jump
  | fall
  | deadTag
  | winTag
deriving DecidableEq, Repr

/-- level.js `Level.hitBlock` result: an item kind spawned from a question
block, or the marker that a brick was struck. -/
inductive BlockHit where
  | coinItem
  | mushroomItem
  | flowerItem
  | brick
deriving DecidableEq, Repr

/-- Entries of the player's `_events` queue (player.js). -/
inductive PEvent where
  | blockHit (item : BlockHit) (col row : ℤ)
  | hurtEvent
  | died
  | gameOver
deriving DecidableEq, Repr

/-- player.js `SMALL_W/SMALL_H/BIG_W/BIG_H` (big and small boxes coincide)
and `INVULN_FRAMES = 120`. -/
def SMALL_W : ℚ := 24
def SMALL_H : ℚ := 28
def BIG_W : ℚ := 24
def BIG_H : ℚ := 28
def INVULN_FRAMES : ℚ := 120

/-- The `Player` fields touched by the operations under verification
(profile, transient status, box, inventory, event queue). -/
structure Player where
  id : ℕ
  isLuigi : Bool
  power : ℕ
  lives : ℕ
  coins : ℕ
  score : ℕ
  x : ℚ
  y : ℚ
  vx : ℚ
  vy : ℚ
  w : ℚ
  h : ℚ
  facingRight : Bool
  pstate : PState
  onGround : Bool
  hitCeiling : Bool
  hitWall : Bool
  dead : Bool
  deadTimer : ℚ
  invuln : ℚ
  stompGrace : ℚ
  activeSlot : ℕ
  inventory : List InventorySlot
  events : List PEvent
deriving DecidableEq, Repr

/-- player.js `new Player(id, isLuigi, spawnX, spawnY)`. -/
def mkPlayer (id : ℕ) (isLuigi : Bool) (spawnX spawnY : ℚ) : Player where
  id := id
  isLuigi := isLuigi
  power := POWER_SMALL
  lives := 3
  coins := 0
  score := 0
  x := spawnX
  y := spawnY
  vx := 0
  vy := 0
  w := SMALL_W
  h := SMALL_H
  facingRight := true
  pstate := PState.idle
  onGround := false
  hitCeiling := false
  hitWall := false
  dead := false
  deadTimer := 0
  invuln := 0
  stompGrace := 0
  activeSlot := 0
  inventory := []
  events := []

/-- player.js `Player.addItem(type)`: push a fresh slot unless the
inventory already holds 5; the Bool is the source's return value. -/
def Player.addItem (p : Player) (t : ItemType) : Player × Bool :=
  if p.inventory.length ≥ 5 then (p, false)
  else ({ p with inventory := p.inventory ++ [mkInventorySlot t] }, true)

/-- player.js `Player.kill(fallen)`. -/
def Player.kill (p : Player) (fallen : Bool) : Player :=
  if p.dead then p
  else
    { p with
      dead := true
      deadTimer := 0
      vx := 0
      vy := if fallen then 0 else -10
      events := p.events ++ [PEvent.died] }

/-- player.js `Player.hurt()`: no-op while invulnerable or dead; SMALL tier
dies; bigger tiers downgrade to SMALL and gain `INVULN_FRAMES` frames. -/
def Player.hurt (p : Player) : Player :=
  if p.invuln > 0 ∨ p.dead then p
  else if p.power = POWER_SMALL then p.kill false
  else
    { p with
      power := POWER_SMALL
      w := SMALL_W
      h := SMALL_H
      invuln := INVULN_FRAMES
      events := p.events ++ [PEvent.hurtEvent] }

/-- player.js `Player.grow(newPower)`. -/
def Player.grow (p : Player) (newPower : ℕ) : Player :=
  if newPower ≤ p.power then p
  else { p with power := newPower, w := BIG_W, h := BIG_H }

/-- The player's bounding box, as read by `overlaps`. -/
def Player.box (p : Player) : Box := ⟨p.x, p.y, p.w, p.h⟩

/-! ### player.js: network serialization -/

/-- JS `Math.round` (round half toward positive infinity). -/
def jsRound (q : ℚ) : ℤ := ⌊q + 1 / 2⌋

/-- JS `+v.toFixed(2)` (round to two decimals, half away from zero). -/
def jsToFixed2 (q : ℚ) : ℚ :=
  if q < 0 then -(((⌊-q * 100 + 1 / 2⌋ : ℤ) : ℚ) / 100)
  else ((⌊q * 100 + 1 / 2⌋ : ℤ) : ℚ) / 100

/-- The PlayerSnapshot produced by `Player.serialize` (player.js). -/
structure PSnap where
  id : ℕ
  x : ℤ
  y : ℤ
  vx : ℚ
  vy : ℚ
  pstate : PState
  power : ℕ
  facingRight : Bool
  onGround : Bool
  dead : Bool
  invuln : ℤ
  coins : ℕ
  lives : ℕ
  score : ℕ
  activeSlot : ℕ
  inventory : List (ItemType × Ammo)
deriving DecidableEq, Repr

/-- player.js `Player.serialize()`: rounded position, two-decimal
velocities, profile and inventory copied verbatim. -/
def Player.serialize (p : Player) : PSnap where
  id := p.id
  x := jsRound p.x
  y := jsRound p.y
  vx := jsToFixed2 p.vx
  vy := jsToFixed2 p.vy
  pstate := p.pstate
  power := p.power
  facingRight := p.facingRight
  onGround := p.onGround
  dead := p.dead
  invuln := jsRound p.invuln
  coins := p.coins
  lives := p.lives
  score := p.score
  activeSlot := p.activeSlot
  inventory := p.inventory.map (fun s => (s.itype, s.ammo))

/-- player.js `Player.applyState(s)`: hard-snap the position when the
distance to the snapshot exceeds 120 px (`sqrt(dx²+dy²) > 120`, embedded as
the equivalent `dx²+dy² > 120²`), otherwise blend a quarter of the delta;
all other fields are overwritten from the snapshot (the power tier, and its
box, only when it differs). -/
def Player.applyState (p : Player) (s : PSnap) : Player :=
  let dx : ℚ := (s.x : ℚ) - p.x
  let dy : ℚ := (s.y : ℚ) - p.y
  let p1 :=
    if dx ^ 2 + dy ^ 2 > 14400 then { p with x := ((s.x : ℚ)), y := ((s.y : ℚ)) }
    else { p with x := p.x + dx * (1 / 4), y := p.y + dy * (1 / 4) }
  let p2 := { p1 with vx := s.vx, vy := s.vy, pstate := s.pstate }
  let p3 :=
    if s.power ≠ p2.power then { p2 with power := s.power, w := BIG_W, h := BIG_H } else p2
  { p3 with
    facingRight := s.facingRight
    onGround := s.onGround
    dead := s.dead
    invuln := ((s.invuln : ℤ) : ℚ)
    coins := s.coins
    lives := s.lives
    score := s.score
    inventory := s.inventory.map (fun i => { itype := i.1, ammo := i.2 })
    activeSlot := s.activeSlot }

/-! ### collectibles.js coins, and the coin leg of game.js `_handleCollisions` -/

/-- collectibles.js `Coin` (id, box, dead flag, block-coin float state). -/
structure Coin where
  id : ℕ
  x : ℚ
  y : ℚ
  w : ℚ
  h : ℚ
  dead : Bool
  vy : ℚ
  floating : Bool
  floatTimer : ℚ
deriving DecidableEq, Repr

/-- Constructor `new Coin(x, y, fromBlock)`: 16×16 box; block coins bounce
up briefly (`vy = -10`, floating for 40 frames).  The id counter is passed
explicitly. -/
def mkCoin (id : ℕ) (x y : ℚ) (fromBlock : Bool) : Coin where
  id := id
  x := x
  y := y
  w := 16
  h := 16
  dead := false
  vy := if fromBlock then -10 else 0
  floating := fromBlock
  floatTimer := if fromBlock then 40 else 0

/-- The coin's bounding box, as read by `overlaps`. -/
def Coin.box (c : Coin) : Box := ⟨c.x, c.y, c.w, c.h⟩

/-- game.js `_handleCollisions`, body of the player-vs-coins loop for one
coin: a live, non-floating, overlapped coin dies; the player gains a coin
and 200 score, and a life when the new coin count is a multiple of 100.
(The score-pop particle and the host's COIN event send are presentation /
network effects outside this state.) -/
def coinCollisionStep (p : Player) (c : Coin) : Player × Coin :=
  if ¬c.dead ∧ ¬c.floating ∧ overlaps p.box c.box then
    let p1 := { p with coins := p.coins + 1, score := p.score + 200 }
    let p2 := if p1.coins % 100 = 0 then { p1 with lives := p1.lives + 1 } else p1
    (p2, { c with dead := true })
  else (p, c)

/-- game.js `_handleCollisions`, player-vs-coins pass: dead players are
skipped (`if (player.dead) continue`), otherwise each coin is processed in
order against the running player state. -/
def handleCoinCollisions (p : Player) (cs : List Coin) : Player × List Coin :=
  if p.dead then (p, cs)
  else cs.foldl (fun acc c =>
    let r := coinCollisionStep acc.1 c
    (r.1, acc.2 ++ [r.2])) (p, [])

/-! ### items.js / game.js: weapon crates and the CRATE_PICKUP event -/

/-- items.js `WeaponCrate`: a 28×28 pickup box with a dead flag. -/
structure WeaponCrate where
  id : ℕ
  x : ℚ
  y : ℚ
  w : ℚ
  h : ℚ
  dead : Bool
deriving DecidableEq, Repr

/-- The slice of game state read and written by the CRATE_PICKUP branch of
game.js `_applyEvent`: the crate list and the players array. -/
structure CrateSyncState where
  weaponCrates : List WeaponCrate
  players : List Player
deriving DecidableEq, Repr

/-- JS `this.weaponCrates.find(c => c.id === msg.cid)` followed by
`crate.dead = true`: mark the first crate with the given id dead. -/
def markFirstCrateDead : List WeaponCrate → ℕ → List WeaponCrate
  | [], _ => []
  | c :: t, cid => if c.id = cid then { c with dead := true } :: t else c :: markFirstCrateDead t cid

/-- JS array mutation through `this.players[msg.pid]` (no-op when the index
is out of range, as the source's `if (player)` guard). -/
def modifyNth {α : Type} (f : α → α) : List α → ℕ → List α
  | [], _ => []
  | a :: t, 0 => f a :: t
  | a :: t, n + 1 => a :: modifyNth f t n

/-- game.js `_applyEvent`, CRATE_PICKUP branch: mark the crate with id
`cid` dead and drop dead crates, then tentatively `addItem` the announced
item to player `pid` (the source comment: in case state sync has not
landed yet). -/
def applyCratePickupEvent (g : CrateSyncState) (cid pid : ℕ) (item : ItemType) : CrateSyncState :=
  let crates1 := markFirstCrateDead g.weaponCrates cid
  { weaponCrates := crates1.filter (fun c => !c.dead)
    players := modifyNth (fun p => (p.addItem item).1) g.players pid }

/-! ### game.js: state machine and the host's win check

game.js `update()` returns immediately unless the state is PLAYING; on the
host, each playing tick increments `_winTimer` when an active player's x
position lies past `level.goalCol` (in tile units), and calls
`_onLevelClear` — which sets the state to WIN — once `_winTimer > 90`.
`_winTimer` is reset only by `load()`. -/

/-- game.js `STATE` (loading / playing / paused / win / gameover). -/
inductive GPhase where
  | loading
  | playing
  | paused
  | winPhase
  | gameover
deriving DecidableEq, Repr

/-- The slice of game state driving the win check. -/
structure WinState where
  winTimer : ℕ
  phase : GPhase
deriving DecidableEq, Repr

/-- What one host tick observes for the win check: both players' x
positions and whether a peer is connected. -/
structure TickObs where
  localX : ℚ
  remoteX : ℚ
  peerConnected : Bool
deriving DecidableEq, Repr

/-- The tick's goal test: `goalCol > 0 && (localP.x/TILE > goalCol ||
(peerConnected && remoteP.x/TILE > goalCol))`. -/
def pastGoalTick (goalCol : ℤ) (o : TickObs) : Bool :=
  decide (goalCol > 0) &&
    (decide (o.localX / TILE > (goalCol : ℚ)) ||
      (o.peerConnected && decide (o.remoteX / TILE > (goalCol : ℚ))))

/-- One host tick of the win check (no-op outside PLAYING; on a qualifying
tick the timer increments and past 90 the state becomes WIN). -/
def winCheckStep (goalCol : ℤ) (s : WinState) (o : TickObs) : WinState :=
  if s.phase ≠ GPhase.playing then s
  else if pastGoalTick goalCol o then
    let t := s.winTimer + 1
    { winTimer := t, phase := if t > 90 then GPhase.winPhase else GPhase.playing }
  else s

/-- Running the win check from a fresh level load (`_winTimer = 0`,
state PLAYING) over a sequence of ticks. -/
def runWinCheck (goalCol : ℤ) (L : List TickObs) : WinState :=
  L.foldl (winCheckStep goalCol) ⟨0, GPhase.playing⟩

/-- The longest run of consecutive qualifying ticks, written from the
claim's wording ("stays past the goal for consecutive ticks; leaving the
goal area resets the requirement") for comparison with the code. -/
def claimMaxConsecutivePastGoal (goalCol : ℤ) (L : List TickObs) : ℕ :=
  (L.foldl (fun (st : ℕ × ℕ) o =>
    if pastGoalTick goalCol o then (st.1 + 1, max st.2 (st.1 + 1)) else (0, st.2)) (0, 0)).2

/-- The tick sequence of the C2 counterexample: 46 ticks with the local
player past the goal column (x = 352, column 11 > goal 10), one tick back
at the spawn (x = 0), then 45 ticks past the goal again. -/
def c2AtGoal : TickObs := ⟨352, 0, false⟩
def c2OffGoal : TickObs := ⟨0, 0, false⟩
def c2Ticks : List TickObs :=
  List.replicate 46 c2AtGoal ++ c2OffGoal :: List.replicate 45 c2AtGoal

/-! ### enemies.js -/

/-- The enemy variants (`constructor.name` tags used on the wire). -/
inductive EType where
  | goomba
  | koopa
  | fireBro
  | iceGoomba
  | lizard
  | flyer
deriving DecidableEq, Repr

/-- A FireBro fireball (plain record in enemies.js). -/
structure EFireball where
  x : ℚ
  y : ℚ
  vx : ℚ
  vy : ℚ
  life : ℚ
  r : ℚ
deriving DecidableEq, Repr

/-- enemies.js: scores `STOMP_SCORE = 100`, `SHELL_SCORE = 200`. -/
def STOMP_SCORE : ℕ := 100
def SHELL_SCORE : ℕ := 200

/-- The enemy state touched by construction, stomp/kill and sync
(base `Enemy` fields plus the per-variant fields: Koopa shell state,
Lizard stomp counter, Flyer wings, FireBro fireballs, walk speed). -/
structure Enemy where
  id : ℕ
  etype : EType
  x : ℚ
  y : ℚ
  vx : ℚ
  vy : ℚ
  w : ℚ
  h : ℚ
  dead : Bool
  remove : Bool
  onGround : Bool
  hitWall : Bool
  shelled : Bool
  shellMoving : Bool
  stomps : ℕ
  spd : ℚ
  hasWings : Bool
  fireballs : List EFireball
deriving DecidableEq, Repr

/-- enemies.js constructors (`new Goomba(x, y)` etc.), with the network id
set immediately afterwards as in game.js `_applyStateSync`
(`enemy.id = es.id`). -/
def mkEnemy (etype : EType) (id : ℕ) (x y : ℚ) : Enemy :=
  let base : Enemy :=
    { id := id, etype := etype, x := x, y := y, vx := 0, vy := 0, w := 0, h := 0,
      dead := false, remove := false, onGround := false, hitWall := false,
      shelled := false, shellMoving := false, stomps := 0, spd := 0,
      hasWings := false, fireballs := [] }
  match etype with
  | EType.goomba => { base with w := 28, h := 28, vx := -1.2, spd := 1.2 }
  | EType.koopa => { base with w := 26, h := 36, vx := -1.5, spd := 1.5 }
  | EType.fireBro => { base with w := 26, h := 32, vx := 0, spd := 0.8 }
  | EType.iceGoomba => { base with w := 28, h := 28, vx := -0.96, spd := 0.96 }
  | EType.lizard => { base with w := 30, h := 34, vx := -2.2, spd := 2.2 }
  | EType.flyer => { base with w := 28, h := 32, vx := -1.6, spd := 1.6, hasWings := true }

/-- enemies.js `Goomba.stomp()`: a dead goomba yields 0 and is untouched;
otherwise it dies flat (velocities zeroed) for `STOMP_SCORE`. -/
def goombaStomp (e : Enemy) : Enemy × ℕ :=
  if e.dead then (e, 0)
  else ({ e with dead := true, vx := 0, vy := 0 }, STOMP_SCORE)

/-- enemies.js `Goomba.kill()` (fireball or shell hit). -/
def goombaKill (e : Enemy) : Enemy × ℕ :=
  if e.dead then (e, 0)
  else ({ e with dead := true, vy := -6 }, STOMP_SCORE)

/-- enemies.js `Koopa.stomp(player)`: first stomp shells it (shorter box,
shifted down); a stomp on a resting shell kicks it away from the player for
no points. -/
def koopaStomp (e : Enemy) (player : Player) : Enemy × ℕ :=
  if e.dead then (e, 0)
  else if ¬ e.shelled then
    ({ e with
        shelled := true
        shellMoving := false
        vx := 0
        vy := 0
        h := 24
        y := e.y + 12 }, STOMP_SCORE)
  else
    let dir : ℚ := if player.x + player.w / 2 < e.x + e.w / 2 then 1 else -1
    ({ e with shellMoving := true, vx := dir * 7 }, 0)

/-- enemies.js `Koopa.kill()`. -/
def koopaKill (e : Enemy) : Enemy × ℕ :=
  if e.dead then (e, 0)
  else ({ e with dead := true, vy := -7 }, SHELL_SCORE)

/-- enemies.js `FireBro.stomp()` (clears its fireballs). -/
def fireBroStomp (e : Enemy) : Enemy × ℕ :=
  if e.dead then (e, 0)
  else ({ e with dead := true, vx := 0, vy := 0, fireballs := [] }, 200)

/-- enemies.js `FireBro.kill()`. -/
def fireBroKill (e : Enemy) : Enemy × ℕ :=
  if e.dead then (e, 0)
  else ({ e with dead := true, vy := -6, fireballs := [] }, 200)

/-- enemies.js `IceGoomba.stomp()`. -/
def iceGoombaStomp (e : Enemy) : Enemy × ℕ :=
  if e.dead then (e, 0)
  else ({ e with dead := true, vx := 0, vy := 0 }, 150)

/-- enemies.js `IceGoomba.kill()`. -/
def iceGoombaKill (e : Enemy) : Enemy × ℕ :=
  if e.dead then (e, 0)
  else ({ e with dead := true, vy := -6 }, 150)

/-- enemies.js `Lizard.stomp()`: the first stomp shrinks and slows it for
100 points; the second kills it for 200. -/
def lizardStomp (e : Enemy) : Enemy × ℕ :=
  if e.dead then (e, 0)
  else
    let stomps := e.stomps + 1
    if stomps = 1 then
      ({ e with
          stomps := stomps
          h := 18
          y := e.y + 16
          spd := 1
          vx := if e.vx < 0 then -1 else 1 }, 100)
    else ({ e with stomps := stomps, dead := true, vx := 0, vy := 0 }, 200)

/-- enemies.js `Lizard.kill()`. -/
def lizardKill (e : Enemy) : Enemy × ℕ :=
  if e.dead then (e, 0)
  else ({ e with dead := true, vy := -6 }, 200)

/-- enemies.js `Flyer.stomp()`: the first stomp removes the wings; a
wingless flyer dies on the next stomp. -/
def flyerStomp (e : Enemy) : Enemy × ℕ :=
  if e.dead then (e, 0)
  else if e.hasWings then ({ e with hasWings := false, spd := 1.8 }, 100)
  else ({ e with dead := true, vx := 0, vy := 0 }, 200)

/-- enemies.js `Flyer.kill()`. -/
def flyerKill (e : Enemy) : Enemy × ℕ :=
  if e.dead then (e, 0)
  else ({ e with dead := true, vy := -7 }, 200)

/-! ### enemies.js serialization and game.js `_applyStateSync` (enemy leg) -/

/-- The EnemySnapshot produced by `Enemy.serialize` (enemies.js): id,
variant tag, rounded position, two-decimal `vx`, lifecycle flags, Koopa
shell state and height. -/
structure ESnap where
  id : ℕ
  etype : EType
  x : ℤ
  y : ℤ
  vx : ℚ
  dead : Bool
  remove : Bool
  shelled : Bool
  shellMoving : Bool
  h : ℚ
deriving DecidableEq, Repr

/-- enemies.js `Enemy.serialize()`. -/
def Enemy.serialize (e : Enemy) : ESnap where
  id := e.id
  etype := e.etype
  x := jsRound e.x
  y := jsRound e.y
  vx := jsToFixed2 e.vx
  dead := e.dead
  remove := e.remove
  shelled := e.shelled
  shellMoving := e.shellMoving
  h := e.h

/-- enemies.js `Enemy.applyState(s)`: overwrite position, `vx`, lifecycle
and shell state directly from the snapshot (no smoothing). -/
def Enemy.applyState (e : Enemy) (s : ESnap) : Enemy :=
  { e with
    x := (s.x : ℚ)
    y := (s.y : ℚ)
    vx := s.vx
    dead := s.dead
    remove := s.remove
    shelled := s.shelled
    shellMoving := s.shellMoving
    h := s.h }

/-- The mirror state the claim compares against a snapshot: exactly the
fields `Enemy.applyState` copies. -/
def Enemy.matchesSnap (e : Enemy) (s : ESnap) : Prop :=
  e.x = (s.x : ℚ) ∧ e.y = (s.y : ℚ) ∧ e.vx = s.vx ∧ e.dead = s.dead ∧
  e.remove = s.remove ∧ e.shelled = s.shelled ∧ e.shellMoving = s.shellMoving ∧ e.h = s.h

/-- game.js `_applyStateSync`, body of the `for (const es of msg.enemies)`
loop when `this.enemies.find(e => e.id === es.id)` succeeds: the first
mirror with that id is overwritten in place. -/
def updateFirstEnemy : List Enemy → ESnap → List Enemy
  | [], _ => []
  | e :: t, s => if e.id = s.id then e.applyState s :: t else e :: updateFirstEnemy t s

/-- game.js `_applyStateSync`, one snapshot entry: overwrite a known
mirror, or construct the variant (`new Goomba(es.x, es.y)` …), give it the
wire id, push it and apply the snapshot. -/
def syncOneEnemy (ms : List Enemy) (s : ESnap) : List Enemy :=
  if ms.any (fun e => e.id = s.id) then updateFirstEnemy ms s
  else ms ++ [(mkEnemy s.etype s.id (s.x : ℚ) (s.y : ℚ)).applyState s]

/-- game.js `_applyStateSync`, enemy leg: process every snapshot entry,
then drop every mirror whose id is not in the host's id set
(`this.enemies = this.enemies.filter(e => hostIds.has(e.id))`). -/
def applyEnemySync (ms : List Enemy) (snaps : List ESnap) : List Enemy :=
  (snaps.foldl syncOneEnemy ms).filter (fun e => snaps.any (fun s => s.id = e.id))

/-! ### level.js `hitBlock` and the grid mutations of game.js -/

/-- level.js `Level.hitBlock(col, row)`: a QBLOCK turns into QUSED and
yields its recorded item (coin when none is recorded), deleting the map
entry; a BRICK yields the BRICK marker with no grid change; anything else
(QUSED included) yields null with no change. -/
def hitBlock (L : LevelState) (col row : ℤ) : Option BlockHit × LevelState :=
  let tile := L.get col row
  if tile = T_QBLOCK then
    let item :=
      match (L.blockItems.find? (fun kv => kv.1 = (col.toNat, row.toNat))) with
      | some kv =>
        match kv.2 with
        | SpawnItem.mushroom => BlockHit.mushroomItem
        | SpawnItem.flower => BlockHit.flowerItem
      | none => BlockHit.coinItem
    (some item,
      { tiles := setNth L.tiles row.toNat (setNth (nthD L.tiles row.toNat []) col.toNat T_QUSED)
        blockItems := L.blockItems.filter (fun kv => !(kv.1 = (col.toNat, row.toNat) : Bool)) })
  else if tile = T_BRICK then (some BlockHit.brick, L)
  else (none, L)

/-- game.js `this.level.tiles[row][col] = 0`: the brick-break mutation
(from `_onBlockHit` for a big player, and from the BRICK_BREAK network
event).  Negative indices would throw in the source before mutating;
embedded as a no-op. -/
def brickBreakAt (L : LevelState) (col row : ℤ) : LevelState :=
  if col < 0 ∨ row < 0 then L
  else
    { L with
      tiles := setNth L.tiles row.toNat (setNth (nthD L.tiles row.toNat []) col.toNat 0) }

/-- The grid mutations a level instance undergoes (block hits and brick
breaks; every other game.js path leaves `level.tiles` alone). -/
inductive GridOp where
  | hit (col row : ℤ)
  | brickBreak (col row : ℤ)
deriving DecidableEq, Repr

/-- Application of one grid mutation. -/
def applyGridOp (L : LevelState) : GridOp → LevelState
  | GridOp.hit col row => (hitBlock L col row).2
  | GridOp.brickBreak col row => brickBreakAt L col row

/-- The C4 counterexample input: a one-column grid whose rows 2 and 3 are
solid GROUND, and an entity (24×28 box) at y = 30 falling with vy = 40 —
after the move its box overlaps both stacked solid tiles. -/
def c4Level : LevelState := ⟨[[0], [0], [1], [1]], []⟩
def c4Ent : Ent := ⟨0, 30, 0, 40, 24, 28, false, false, false⟩

/-! ## Theorems -/

/-! ### C3: the stomp test -/

/-- C3: `stompCheck(A,B)` is true iff A.vy > 0, A's bottom edge is at or
above B's vertical midpoint, and the horizontal overlap exceeds the 2 px
margin (`A.x + A.w > B.x + 2` and `A.x < B.x + B.w - 2`); in particular it
is false for a pure side approach (A.vy ≤ 0) even when the boxes overlap. -/
theorem stompCheck_characterization (A B : MoverBox) :
    (stompCheck A B = true ↔
      A.vy > 0 ∧ A.y + A.h ≤ B.y + B.h * (1 / 2) ∧
      A.x + A.w > B.x + 2 ∧ A.x < B.x + B.w - 2) ∧
    (A.vy ≤ 0 → stompCheck A B = false) := by
  constructor
  · by_cases hv : A.vy ≤ 0
    · simp only [stompCheck, if_pos hv]
      constructor
      · intro h
        simp at h
      · rintro ⟨h1, -⟩
        exact absurd h1 (not_lt.mpr hv)
    · simp only [stompCheck, if_neg hv, Bool.and_eq_true, decide_eq_true_eq]
      constructor
      · rintro ⟨⟨h1, h2⟩, h3⟩
        exact ⟨lt_of_not_le hv, h1, h2, h3⟩
      · rintro ⟨-, h1, h2, h3⟩
        exact ⟨⟨h1, h2⟩, h3⟩
  · intro hv
    simp only [stompCheck, if_pos hv]

/-- Witness for C3: a falling attacker centred above a defender stomps it
(all hypotheses of the characterization discharged at a concrete input). -/
theorem stompCheck_characterization_witness :
    stompCheck ⟨10, 0, 24, 28, 5⟩ ⟨8, 26, 28, 28, 0⟩ = true :=
  ((stompCheck_characterization ⟨10, 0, 24, 28, 5⟩ ⟨8, 26, 28, 28, 0⟩).1).mpr (by norm_num)

/-! ### C6: hurt semantics per power tier -/

/-- C6: with invulnerability timer 0, a SMALL-tier player that takes hurt
dies, while a BIG- or FIRE-tier (live) player does not die but downgrades
to SMALL and receives the fixed 120-frame invulnerability window. -/
theorem hurt_small_dies_big_downgrades (p : Player) (hinv : p.invuln = 0) :
    (p.power = POWER_SMALL → p.hurt.dead = true) ∧
    (POWER_BIG ≤ p.power → p.dead = false →
      p.hurt.dead = false ∧ p.hurt.power = POWER_SMALL ∧ p.hurt.invuln = INVULN_FRAMES) := by
  have hnot : ¬ (p.invuln > 0) := by rw [hinv]; exact lt_irrefl 0
  constructor
  · intro hpow
    by_cases hd : p.dead
    · simp [Player.hurt, hd]
    · simp [Player.hurt, hnot, hd, hpow, Player.kill]
  · intro hpow hd
    have hne : ¬ p.power = POWER_SMALL := by
      intro h
      rw [h] at hpow
      exact absurd hpow (by norm_num [POWER_BIG, POWER_SMALL])
    simp [Player.hurt, hnot, hd, hne]

/-- Witness for C6: a live FIRE-tier player with invulnerability 0 takes
hurt and ends up alive, SMALL, with a 120-frame invulnerability window. -/
theorem hurt_small_dies_big_downgrades_witness :
    let p := { mkPlayer 0 false 64 352 with power := POWER_FIRE }
    p.hurt.dead = false ∧ p.hurt.power = POWER_SMALL ∧ p.hurt.invuln = INVULN_FRAMES :=
  (hurt_small_dies_big_downgrades { mkPlayer 0 false 64 352 with power := POWER_FIRE }
    rfl).2 (by norm_num [mkPlayer, POWER_BIG, POWER_FIRE]) rfl

/-! ### C5: player snapshot round trip -/

/-- Rounding with `Math.round` moves a rational by at most one half. -/
theorem jsRound_dist_le (q : ℚ) : |((jsRound q : ℤ) : ℚ) - q| ≤ 1 / 2 := by
  have h1 : ((⌊q + 1 / 2⌋ : ℤ) : ℚ) ≤ q + 1 / 2 := Int.floor_le _
  have h2 : q + 1 / 2 < ((⌊q + 1 / 2⌋ : ℤ) : ℚ) + 1 := Int.lt_floor_add_one _
  rw [jsRound, abs_le]
  constructor <;> linarith

/-- Applying a snapshot copies the profile fields (power, score, coins,
lives, active slot, inventory) verbatim from the snapshot. -/
theorem applyState_profile (q : Player) (s : PSnap) :
    (q.applyState s).power = s.power ∧ (q.applyState s).score = s.score ∧
    (q.applyState s).coins = s.coins ∧ (q.applyState s).lives = s.lives ∧
    (q.applyState s).activeSlot = s.activeSlot ∧
    (q.applyState s).inventory =
      s.inventory.map (fun i => ({ itype := i.1, ammo := i.2 } : InventorySlot)) := by
  simp only [Player.applyState]
  refine ⟨?_, ?_, ?_, ?_, ?_, ?_⟩ <;> first | trivial | (split_ifs <;> simp_all)

/-- C5: serializing a player and applying the snapshot to a freshly
constructed player of the same id reproduces the power tier, score, coins,
lives, inventory (slot kinds and remaining ammo) and active slot exactly,
and the position within a fixed tolerance of 91 px (½ px of rounding plus
at most three quarters of the 120 px blending window). -/
theorem serialize_applyState_roundtrip (p : Player) (sx sy : ℚ) :
    let f := mkPlayer p.id p.isLuigi sx sy
    let f' := f.applyState p.serialize
    f'.power = p.power ∧ f'.score = p.score ∧ f'.coins = p.coins ∧ f'.lives = p.lives ∧
    f'.inventory = p.inventory ∧ f'.activeSlot = p.activeSlot ∧
    |f'.x - p.x| ≤ 91 ∧ |f'.y - p.y| ≤ 91 := by
  intro f f'
  have hinv :
      (p.inventory.map (fun s => (s.itype, s.ammo))).map
        (fun i : ItemType × Ammo => ({ itype := i.1, ammo := i.2 } : InventorySlot)) =
      p.inventory := by
    rw [List.map_map]
    exact List.map_id p.inventory
  have hx : |f'.x - p.x| ≤ 91 ∧ |f'.y - p.y| ≤ 91 := by
    show
      |(f.applyState p.serialize).x - p.x| ≤ 91 ∧ |(f.applyState p.serialize).y - p.y| ≤ 91
    have hfx : f.x = sx := rfl
    have hfy : f.y = sy := rfl
    set rx : ℚ := ((jsRound p.x : ℤ) : ℚ) with hrx
    set ry : ℚ := ((jsRound p.y : ℤ) : ℚ) with hry
    have hbx := jsRound_dist_le p.x
    have hby := jsRound_dist_le p.y
    rw [← hrx] at hbx
    rw [← hry] at hby
    rw [abs_le] at hbx hby
    by_cases hfar : (rx - sx) ^ 2 + (ry - sy) ^ 2 > 14400
    · have hxv : (f.applyState p.serialize).x = rx := by
        simp only [Player.applyState, Player.serialize, hfx, hfy, ← hrx, ← hry, if_pos hfar]
        split <;> rfl
      have hyv : (f.applyState p.serialize).y = ry := by
        simp only [Player.applyState, Player.serialize, hfx, hfy, ← hrx, ← hry, if_pos hfar]
        split <;> rfl
      rw [hxv, hyv]
      constructor <;> rw [abs_le] <;> constructor <;> linarith [hbx.1, hbx.2, hby.1, hby.2]
    · have hxv : (f.applyState p.serialize).x = sx + (rx - sx) * (1 / 4) := by
        simp only [Player.applyState, Player.serialize, hfx, hfy, ← hrx, ← hry, if_neg hfar]
        split <;> rfl
      have hyv : (f.applyState p.serialize).y = sy + (ry - sy) * (1 / 4) := by
        simp only [Player.applyState, Player.serialize, hfx, hfy, ← hrx, ← hry, if_neg hfar]
        split <;> rfl
      push_neg at hfar
      have hsq : (rx - sx) ^ 2 ≤ 14400 := by nlinarith [sq_nonneg (ry - sy)]
      have hsq' : (ry - sy) ^ 2 ≤ 14400 := by nlinarith [sq_nonneg (rx - sx)]
      have hdx1 : rx - sx ≤ 120 := by nlinarith [sq_nonneg (rx - sx - 120)]
      have hdx2 : -120 ≤ rx - sx := by nlinarith [sq_nonneg (rx - sx + 120)]
      have hdy1 : ry - sy ≤ 120 := by nlinarith [sq_nonneg (ry - sy - 120)]
      have hdy2 : -120 ≤ ry - sy := by nlinarith [sq_nonneg (ry - sy + 120)]
      rw [hxv, hyv]
      constructor <;> rw [abs_le] <;> constructor <;>
        linarith [hbx.1, hbx.2, hby.1, hby.2]
  obtain ⟨h1, h2, h3, h4, h5, h6⟩ := applyState_profile f p.serialize
  exact ⟨h1, h2, h3, h4, by rw [h6]; exact hinv, h5, hx.1, hx.2⟩

/-! ### C7: coin collection -/

/-- C7: a live, non-invulnerable player overlapping a live non-floating
coin collects it: the coin is removed (dead), coins increases by 1, score
by 200, and a life is gained exactly when the new coin count is a multiple
of 100. -/
theorem coin_pickup_effect (p : Player) (c : Coin)
    (hp : p.dead = false) (hinv : p.invuln = 0)
    (hc : c.dead = false) (hf : c.floating = false)
    (hov : overlaps p.box c.box = true) :
    (handleCoinCollisions p [c]).2 = [{ c with dead := true }] ∧
    (handleCoinCollisions p [c]).1.coins = p.coins + 1 ∧
    (handleCoinCollisions p [c]).1.score = p.score + 200 ∧
    (handleCoinCollisions p [c]).1.lives =
      (if (p.coins + 1) % 100 = 0 then p.lives + 1 else p.lives) := by
  simp only [handleCoinCollisions, hp, Bool.false_eq_true, if_false, List.foldl_cons,
    List.foldl_nil, coinCollisionStep, hc, hf, hov, not_false_eq_true, and_self, if_true,
    true_and, List.nil_append]
  by_cases hm : (p.coins + 1) % 100 = 0 <;> simp [hm]

/-- Witness for C7: a fresh player standing on a coin collects it (here the
player's 100th coin, so a life is also granted). -/
theorem coin_pickup_effect_witness :
    let p := { mkPlayer 0 false 0 0 with coins := 99 }
    let c := mkCoin 1000 8 8 false
    (handleCoinCollisions p [c]).1.coins = 100 ∧
    (handleCoinCollisions p [c]).1.lives = 4 := by
  have h := coin_pickup_effect { mkPlayer 0 false 0 0 with coins := 99 }
    (mkCoin 1000 8 8 false) rfl rfl rfl rfl
    (by norm_num [overlaps, Player.box, Coin.box, mkPlayer, mkCoin, SMALL_W, SMALL_H])
  exact ⟨h.2.1, by rw [h.2.2.2]; norm_num [mkPlayer]⟩

/-! ### C1: the CRATE_PICKUP event is not idempotent on the inventory -/

/-- Counterexample to C1: one live crate (id 1) and one player with an
empty inventory; applying the same CRATE_PICKUP event twice leaves two
inventory slots, not one — the second application is not a no-op. -/
theorem cratePickup_not_idempotent :
    let g0 : CrateSyncState := ⟨[⟨1, 100, 200, 28, 28, false⟩], [mkPlayer 0 false 0 0]⟩
    let g1 := applyCratePickupEvent g0 1 0 ItemType.sword
    let g2 := applyCratePickupEvent g1 1 0 ItemType.sword
    (nthD g1.players 0 (mkPlayer 9 false 0 0)).inventory.length = 1 ∧
    (nthD g2.players 0 (mkPlayer 9 false 0 0)).inventory.length = 2 ∧
    g2 ≠ g1 := by decide

/-- Marking an id absent from a crate list changes nothing. -/
theorem markFirstCrateDead_of_not_mem (l : List WeaponCrate) (cid : ℕ)
    (h : ∀ c ∈ l, c.id ≠ cid) : markFirstCrateDead l cid = l := by
  induction l with
  | nil => rfl
  | cons c t ih =>
    have hc : c.id ≠ cid := h c (List.mem_cons_self c t)
    simp only [markFirstCrateDead, if_neg hc]
    rw [ih (fun x hx => h x (List.mem_cons_of_mem c hx))]

/-- After one application, no crate with the picked id survives (given
crate ids are unique, as minted by the source's global counter). -/
theorem cratePickup_removes_id (l : List WeaponCrate) (cid : ℕ)
    (hnodup : (l.map WeaponCrate.id).Nodup) :
    ∀ c ∈ (markFirstCrateDead l cid).filter (fun c => !c.dead), c.id ≠ cid := by
  induction l with
  | nil => intro c hc; simp [markFirstCrateDead] at hc
  | cons a t ih =>
    rw [List.map_cons, List.nodup_cons] at hnodup
    intro c hc
    by_cases ha : a.id = cid
    · rw [markFirstCrateDead, if_pos ha,
        List.filter_cons_of_neg (by simp)] at hc
      have hct : c ∈ t := List.mem_of_mem_filter hc
      intro hcid
      exact hnodup.1 (ha ▸ hcid ▸ List.mem_map_of_mem WeaponCrate.id hct)
    · rw [markFirstCrateDead, if_neg ha] at hc
      by_cases hd : a.dead
      · rw [List.filter_cons_of_neg (by simp [hd])] at hc
        exact ih hnodup.2 c hc
      · rw [List.filter_cons_of_pos (by simp [hd])] at hc
        rcases List.mem_cons.mp hc with h | h
        · exact h ▸ ha
        · exact ih hnodup.2 c h

/-- Length is preserved by `modifyNth`. -/
theorem modifyNth_length {α : Type} (f : α → α) (l : List α) (n : ℕ) :
    (modifyNth f l n).length = l.length := by
  induction l generalizing n with
  | nil => rfl
  | cons a t ih =>
    cases n with
    | zero => rfl
    | succ m => simp [modifyNth, ih]

/-- Reading back the entry touched by `modifyNth`. -/
theorem nthD_modifyNth {α : Type} (f : α → α) (l : List α) (n : ℕ) (d : α)
    (h : n < l.length) : nthD (modifyNth f l n) n d = f (nthD l n d) := by
  induction l generalizing n with
  | nil => simp at h
  | cons a t ih =>
    cases n with
    | zero => rfl
    | succ m => exact ih m (by simpa using h)

/-- C1 (amended): re-applying a CRATE_PICKUP event leaves the crate list
unchanged — the crate was already removed, so exactly one crate dies in
total — but it is not a no-op on the inventory: each application appends
another slot for the announced item while the player holds fewer than
5 slots (the source adds the item tentatively and relies on the next STATE
snapshot to correct the inventory). -/
theorem cratePickup_second_application (g : CrateSyncState) (cid pid : ℕ) (item : ItemType)
    (hnodup : (g.weaponCrates.map WeaponCrate.id).Nodup) :
    (∀ c ∈ (applyCratePickupEvent g cid pid item).weaponCrates, c.id ≠ cid) ∧
    (applyCratePickupEvent (applyCratePickupEvent g cid pid item) cid pid item).weaponCrates =
      (applyCratePickupEvent g cid pid item).weaponCrates ∧
    (∀ d : Player, pid < g.players.length →
      (nthD (applyCratePickupEvent g cid pid item).players pid d).inventory.length < 5 →
      (nthD (applyCratePickupEvent (applyCratePickupEvent g cid pid item) cid pid item).players
          pid d).inventory =
        (nthD (applyCratePickupEvent g cid pid item).players pid d).inventory
          ++ [mkInventorySlot item]) := by
  have hremoved := cratePickup_removes_id g.weaponCrates cid hnodup
  refine ⟨hremoved, ?_, ?_⟩
  · simp only [applyCratePickupEvent]
    rw [markFirstCrateDead_of_not_mem _ _ hremoved]
    apply List.filter_eq_self.mpr
    intro a ha
    have h2 := List.of_mem_filter ha
    exact h2
  · intro d hpid hlen
    have hlen1 : pid < (applyCratePickupEvent g cid pid item).players.length := by
      simpa [applyCratePickupEvent, modifyNth_length] using hpid
    conv_lhs => rw [applyCratePickupEvent]
    rw [nthD_modifyNth _ _ _ _ hlen1]
    simp only [Player.addItem, if_neg (not_le.mpr hlen)]

/-- Witness for C1 (amended): concrete two-application run on a single
crate and one player — the crate list is unchanged by the second
application while the inventory grows to two slots. -/
theorem cratePickup_second_application_witness :
    let g0 : CrateSyncState := ⟨[⟨1, 100, 200, 28, 28, false⟩], [mkPlayer 0 false 0 0]⟩
    (applyCratePickupEvent (applyCratePickupEvent g0 1 0 ItemType.sword) 1 0
        ItemType.sword).weaponCrates =
      (applyCratePickupEvent g0 1 0 ItemType.sword).weaponCrates ∧
    (nthD (applyCratePickupEvent (applyCratePickupEvent g0 1 0 ItemType.sword) 1 0
        ItemType.sword).players 0 (mkPlayer 9 false 0 0)).inventory =
      (nthD (applyCratePickupEvent g0 1 0 ItemType.sword).players 0
        (mkPlayer 9 false 0 0)).inventory ++ [mkInventorySlot ItemType.sword] := by
  have h := cratePickup_second_application
    ⟨[⟨1, 100, 200, 28, 28, false⟩], [mkPlayer 0 false 0 0]⟩ 1 0 ItemType.sword (by decide)
  exact ⟨h.2.1, h.2.2 (mkPlayer 9 false 0 0) (by decide) (by decide)⟩

/-! ### C2: the win debounce is cumulative, not consecutive -/

/-- Once out of PLAYING, the win check never changes the state again. -/
theorem winCheck_frozen (goalCol : ℤ) (L : List TickObs) (s : WinState)
    (hs : s.phase ≠ GPhase.playing) : L.foldl (winCheckStep goalCol) s = s := by
  induction L with
  | nil => rfl
  | cons o t ih => rw [List.foldl_cons, winCheckStep, if_pos hs]; exact ih

/-- Fold characterization of the win check: starting from a timer value
`n ≤ 90` in PLAYING, the final state is determined by `n` plus the number
of qualifying ticks — the timer never resets. -/
theorem winCheck_foldl_char (goalCol : ℤ) (L : List TickObs) (n : ℕ) (hn : n ≤ 90) :
    L.foldl (winCheckStep goalCol) ⟨n, GPhase.playing⟩ =
      if n + (L.filter (pastGoalTick goalCol)).length ≤ 90 then
        ⟨n + (L.filter (pastGoalTick goalCol)).length, GPhase.playing⟩
      else ⟨91, GPhase.winPhase⟩ := by
  induction L generalizing n with
  | nil => simp [hn]
  | cons o t ih =>
    rw [List.foldl_cons, winCheckStep]
    simp only [ne_eq, not_true_eq_false, if_false, reduceIte]
    by_cases hq : pastGoalTick goalCol o
    · rw [if_pos hq, List.filter_cons_of_pos hq]
      by_cases h91 : n + 1 > 90
      · have hn90 : n = 90 := by omega
        subst hn90
        rw [if_pos h91, winCheck_frozen _ _ _ (by simp),
          if_neg (by simp only [List.length_cons]; omega)]
      · rw [if_neg h91]
        rw [ih (n + 1) (by omega)]
        simp only [List.length_cons]
        by_cases hle : n + 1 + (t.filter (pastGoalTick goalCol)).length ≤ 90
        · rw [if_pos hle, if_pos (by omega)]
          congr 1
          omega
        · rw [if_neg hle, if_neg (by omega)]
    · rw [if_neg hq, List.filter_cons_of_neg hq]
      exact ih n hn

/-- C2 (amended): from a fresh level load the host's game state reaches WIN
exactly when the cumulative number of ticks with an active player past the
goal column exceeds 90.  Ticks with nobody past the goal do not count, but
they do not reset the accumulated count either — the debounce is
cumulative, not consecutive. -/
theorem winCheck_cumulative (goalCol : ℤ) (L : List TickObs) :
    (runWinCheck goalCol L).phase = GPhase.winPhase ↔
      90 < (L.filter (pastGoalTick goalCol)).length := by
  rw [runWinCheck, winCheck_foldl_char goalCol L 0 (by omega)]
  by_cases h : 0 + (L.filter (pastGoalTick goalCol)).length ≤ 90
  · rw [if_pos h]
    constructor
    · intro hph
      exact absurd hph (by simp)
    · intro hgt
      omega
  · rw [if_neg h]
    constructor
    · intro _
      omega
    · intro _
      rfl

set_option maxRecDepth 8000 in
/-- Counterexample to C2: over `c2Ticks` no run of more than 90 consecutive
qualifying ticks ever occurs (the longest is 46, and the off-goal tick
should reset the requirement per the claim), yet the code reaches WIN,
because `_winTimer` pauses instead of resetting on the off-goal tick. -/
theorem winCheck_not_consecutive :
    (runWinCheck 10 c2Ticks).phase = GPhase.winPhase ∧
    claimMaxConsecutivePastGoal 10 c2Ticks = 46 := by
  constructor
  · norm_num [runWinCheck, winCheckStep, pastGoalTick, TILE, c2Ticks, c2AtGoal, c2OffGoal,
      List.replicate, List.foldl]
  · norm_num [claimMaxConsecutivePastGoal, pastGoalTick, TILE, c2Ticks, c2AtGoal, c2OffGoal,
      List.replicate, List.foldl]

/-! ### C10: dead enemies award nothing -/

/-- C10: for every enemy variant, stomp() and kill() on an enemy whose dead
flag is already set return 0 points and leave the enemy unchanged, so a
defeated enemy can never award points a second time. -/
theorem dead_enemy_awards_nothing (e : Enemy) (pl : Player) (hd : e.dead = true) :
    goombaStomp e = (e, 0) ∧ goombaKill e = (e, 0) ∧
    koopaStomp e pl = (e, 0) ∧ koopaKill e = (e, 0) ∧
    fireBroStomp e = (e, 0) ∧ fireBroKill e = (e, 0) ∧
    iceGoombaStomp e = (e, 0) ∧ iceGoombaKill e = (e, 0) ∧
    lizardStomp e = (e, 0) ∧ lizardKill e = (e, 0) ∧
    flyerStomp e = (e, 0) ∧ flyerKill e = (e, 0) := by
  refine ⟨?_, ?_, ?_, ?_, ?_, ?_, ?_, ?_, ?_, ?_, ?_, ?_⟩ <;>
    simp [goombaStomp, goombaKill, koopaStomp, koopaKill, fireBroStomp, fireBroKill,
      iceGoombaStomp, iceGoombaKill, lizardStomp, lizardKill, flyerStomp, flyerKill, hd]

/-- Witness for C10: a concrete already-dead goomba is unchanged and awards
0 on a repeated stomp and on a shell hit. -/
theorem dead_enemy_awards_nothing_witness :
    goombaStomp { mkEnemy EType.goomba 7 64 96 with dead := true } =
      ({ mkEnemy EType.goomba 7 64 96 with dead := true }, 0) ∧
    goombaKill { mkEnemy EType.goomba 7 64 96 with dead := true } =
      ({ mkEnemy EType.goomba 7 64 96 with dead := true }, 0) := by
  have h := dead_enemy_awards_nothing { mkEnemy EType.goomba 7 64 96 with dead := true }
    (mkPlayer 0 false 0 0) rfl
  exact ⟨h.1, h.2.1⟩

/-! ### C8: enemy-mirror reconciliation from a STATE snapshot -/

/-- A mirror untouched by an update with a different id stays in the list. -/
theorem mem_updateFirstEnemy_of_ne (ms : List Enemy) (s : ESnap) (e : Enemy)
    (he : e ∈ ms) (hne : e.id ≠ s.id) : e ∈ updateFirstEnemy ms s := by
  induction ms with
  | nil => simp at he
  | cons a t ih =>
    rcases List.mem_cons.mp he with h | h
    · subst h
      rw [updateFirstEnemy, if_neg hne]
      exact List.mem_cons_self _ _
    · rw [updateFirstEnemy]
      split
      · exact List.mem_cons_of_mem _ h
      · exact List.mem_cons_of_mem _ (ih h)

/-- After processing a snapshot whose id is present, some mirror carries
exactly the snapshot's state. -/
theorem updateFirstEnemy_establishes (ms : List Enemy) (s : ESnap)
    (h : ms.any (fun e => e.id = s.id) = true) :
    ∃ e ∈ updateFirstEnemy ms s, e.id = s.id ∧ e.matchesSnap s := by
  induction ms with
  | nil => simp at h
  | cons a t ih =>
    by_cases ha : a.id = s.id
    · refine ⟨a.applyState s, ?_, ha, ?_⟩
      · rw [updateFirstEnemy, if_pos ha]
        exact List.mem_cons_self _ _
      · exact ⟨rfl, rfl, rfl, rfl, rfl, rfl, rfl, rfl⟩
    · rw [List.any_cons] at h
      have ht : t.any (fun e => e.id = s.id) = true := by
        rcases Bool.or_eq_true_iff.mp h with h1 | h1
        · exact absurd (by simpa using h1) ha
        · exact h1
      obtain ⟨e, hmem, hid, hmatch⟩ := ih ht
      refine ⟨e, ?_, hid, hmatch⟩
      rw [updateFirstEnemy, if_neg ha]
      exact List.mem_cons_of_mem _ hmem

/-- Processing one snapshot entry establishes a mirror carrying its state. -/
theorem syncOneEnemy_establishes (ms : List Enemy) (s : ESnap) :
    ∃ e ∈ syncOneEnemy ms s, e.id = s.id ∧ e.matchesSnap s := by
  rw [syncOneEnemy]
  split
  · exact updateFirstEnemy_establishes ms s (by assumption)
  · refine ⟨(mkEnemy s.etype s.id (s.x : ℚ) (s.y : ℚ)).applyState s, ?_, ?_, ?_⟩
    · exact List.mem_append_right _ (List.mem_singleton_self _)
    · cases s.etype <;> rfl
    · refine ⟨rfl, rfl, rfl, rfl, rfl, rfl, rfl, rfl⟩

/-- Processing an entry with a different id preserves an established
mirror. -/
theorem syncOneEnemy_preserves (ms : List Enemy) (s s' : ESnap) (e : Enemy)
    (he : e ∈ ms) (hne : e.id ≠ s'.id) : e ∈ syncOneEnemy ms s' := by
  rw [syncOneEnemy]
  split
  · exact mem_updateFirstEnemy_of_ne ms s' e he hne
  · exact List.mem_append_left _ he

/-- Folding the remaining snapshots (all with different ids) preserves an
established mirror. -/
theorem foldl_syncOneEnemy_preserves (rest : List ESnap) (ms : List Enemy) (e : Enemy)
    (he : e ∈ ms) (hne : ∀ s' ∈ rest, e.id ≠ s'.id) :
    e ∈ rest.foldl syncOneEnemy ms := by
  induction rest generalizing ms with
  | nil => exact he
  | cons s' t ih =>
    rw [List.foldl_cons]
    exact ih (syncOneEnemy ms s') (syncOneEnemy_preserves ms s' s' e he
      (hne s' (List.mem_cons_self _ _))) (fun u hu => hne u (List.mem_cons_of_mem _ hu))

/-- With snapshot ids pairwise distinct, the whole fold leaves, for every
snapshot entry, some mirror carrying exactly that entry's state. -/
theorem foldl_syncOneEnemy_establishes (snaps : List ESnap) (ms : List Enemy) (s : ESnap)
    (hs : s ∈ snaps) (hnodup : (snaps.map ESnap.id).Nodup) :
    ∃ e ∈ snaps.foldl syncOneEnemy ms, e.id = s.id ∧ e.matchesSnap s := by
  induction snaps generalizing ms with
  | nil => simp at hs
  | cons s0 t ih =>
    rw [List.map_cons, List.nodup_cons] at hnodup
    rw [List.foldl_cons]
    rcases List.mem_cons.mp hs with h | h
    · subst h
      obtain ⟨e, hmem, hid, hmatch⟩ := syncOneEnemy_establishes ms s
      refine ⟨e, ?_, hid, hmatch⟩
      refine foldl_syncOneEnemy_preserves t (syncOneEnemy ms s) e hmem ?_
      intro s' hs' heq
      apply hnodup.1
      have hss : s.id = s'.id := by rw [← hid, heq]
      rw [hss]
      exact List.mem_map_of_mem ESnap.id hs'
    · exact ih (syncOneEnemy ms s0) h hnodup.2

/-- C8: applying a STATE snapshot's enemy list (with its ids unique, as
produced by the host) (a) leaves only mirrors whose ids occur in the
snapshot — a previously-mirrored id omitted from the snapshot is removed —
and (b) for every snapshot entry there is a mirror with that id holding
exactly the snapshot state: an unknown id has a freshly created mirror and
a known id has been overwritten directly. -/
theorem applyEnemySync_spec (ms : List Enemy) (snaps : List ESnap)
    (hnodup : (snaps.map ESnap.id).Nodup) :
    (∀ e ∈ applyEnemySync ms snaps, ∃ s ∈ snaps, s.id = e.id) ∧
    (∀ i : ℕ, (∀ s ∈ snaps, s.id ≠ i) → ∀ e ∈ applyEnemySync ms snaps, e.id ≠ i) ∧
    (∀ s ∈ snaps, ∃ e ∈ applyEnemySync ms snaps, e.id = s.id ∧ e.matchesSnap s) := by
  refine ⟨?_, ?_, ?_⟩
  · intro e he
    rw [applyEnemySync, List.mem_filter] at he
    rcases List.any_eq_true.mp he.2 with ⟨s, hs, hid⟩
    exact ⟨s, hs, by simpa using hid⟩
  · intro i hno e he hei
    rw [applyEnemySync, List.mem_filter] at he
    rcases List.any_eq_true.mp he.2 with ⟨s, hs, hid⟩
    exact hno s hs (by simp at hid; rw [hid, hei])
  · intro s hs
    obtain ⟨e, hmem, hid, hmatch⟩ := foldl_syncOneEnemy_establishes snaps ms s hs hnodup
    refine ⟨e, ?_, hid, hmatch⟩
    rw [applyEnemySync, List.mem_filter]
    refine ⟨hmem, ?_⟩
    exact List.any_eq_true.mpr ⟨s, hs, by simpa using hid.symm⟩

/-- Witness for C8: one stale goomba mirror (id 1) and a snapshot holding
only a lizard (id 3): after the apply, id 1 is gone and a mirror with id 3
carries the snapshot state. -/
theorem applyEnemySync_spec_witness :
    (∀ e ∈ applyEnemySync [mkEnemy EType.goomba 1 0 0]
        [⟨3, EType.lizard, 5, 7, 2, false, false, false, false, 34⟩], e.id ≠ 1) ∧
    (∃ e ∈ applyEnemySync [mkEnemy EType.goomba 1 0 0]
        [⟨3, EType.lizard, 5, 7, 2, false, false, false, false, 34⟩],
      e.id = 3 ∧ e.matchesSnap ⟨3, EType.lizard, 5, 7, 2, false, false, false, false, 34⟩) := by
  have h := applyEnemySync_spec [mkEnemy EType.goomba 1 0 0]
    [⟨3, EType.lizard, 5, 7, 2, false, false, false, false, 34⟩] (by simp)
  exact ⟨h.2.1 1 (by simp), h.2.2 _ (List.mem_singleton_self _)⟩

/-! ### C9: spent question blocks never revert -/

/-- Writing one list entry: reading index `m` gives the new value when it
hits the written (in-range) index `n`, and the old entry otherwise. -/
theorem nthD_setNth {α : Type} (l : List α) (n m : ℕ) (v d : α) :
    nthD (setNth l n v) m d = if m = n ∧ n < l.length then v else nthD l m d := by
  induction l generalizing n m with
  | nil => simp [setNth, nthD]
  | cons a t ih =>
    cases n with
    | zero =>
      cases m with
      | zero => simp [setNth, nthD]
      | succ k => simp [setNth, nthD]
    | succ n' =>
      cases m with
      | zero => simp [setNth, nthD]
      | succ k =>
        show nthD (setNth t n' v) k d = _
        rw [ih n' k]
        by_cases hc : k = n' ∧ n' < t.length
        · rw [if_pos hc, if_pos (by simp only [List.length_cons]; omega)]
        · rw [if_neg hc, if_neg (by simp only [List.length_cons]; omega)]
          rfl

/-- Reading any cell after a single tile write yields either the written
value or the cell's previous value (for any block-items maps). -/
theorem get_setTile_cases (ts : List (List ℕ)) (b b' : List ((ℕ × ℕ) × SpawnItem))
    (c r v : ℕ) (col row : ℤ) :
    (⟨setNth ts r (setNth (nthD ts r []) c v), b'⟩ : LevelState).get col row = v ∨
    (⟨setNth ts r (setNth (nthD ts r []) c v), b'⟩ : LevelState).get col row =
      (⟨ts, b⟩ : LevelState).get col row := by
  rw [LevelState.get, LevelState.get]
  split
  · right; rfl
  · simp only
    rw [nthD_setNth]
    split
    · rename_i hcond
      rw [hcond.1, nthD_setNth]
      split
      · left; rfl
      · right; rfl
    · right; rfl

/-- The level-state component of `hitBlock`: the grid is rewritten (cell to
QUSED, map entry deleted) only when the struck cell is a QBLOCK. -/
theorem hitBlock_snd (L : LevelState) (col row : ℤ) :
    (hitBlock L col row).2 =
      if L.get col row = T_QBLOCK then
        { tiles := setNth L.tiles row.toNat (setNth (nthD L.tiles row.toNat []) col.toNat T_QUSED)
          blockItems := L.blockItems.filter (fun kv => !(kv.1 = (col.toNat, row.toNat) : Bool)) }
      else L := by
  rw [hitBlock]
  split
  · rfl
  · split <;> rfl

/-- One grid mutation keeps a spent-or-air cell spent-or-air: `hitBlock`
writes only QUSED (and only over a QBLOCK), and brick breaking writes only
AIR. -/
theorem gridOp_preserves_spent (L : LevelState) (col row : ℤ)
    (hP : L.get col row = T_QUSED ∨ L.get col row = T_AIR) (op : GridOp) :
    (applyGridOp L op).get col row = T_QUSED ∨ (applyGridOp L op).get col row = T_AIR := by
  obtain ⟨ts, b⟩ := L
  cases op with
  | hit c r =>
    show (hitBlock ⟨ts, b⟩ c r).2.get col row = T_QUSED ∨
      (hitBlock ⟨ts, b⟩ c r).2.get col row = T_AIR
    rw [hitBlock_snd]
    split
    · rcases get_setTile_cases ts b
        (b.filter (fun kv => !(kv.1 = (c.toNat, r.toNat) : Bool)))
        c.toNat r.toNat T_QUSED col row with h | h
      · left; exact h
      · rw [h]; exact hP
    · exact hP
  | brickBreak c r =>
    show (brickBreakAt ⟨ts, b⟩ c r).get col row = T_QUSED ∨
      (brickBreakAt ⟨ts, b⟩ c r).get col row = T_AIR
    rw [brickBreakAt]
    split
    · exact hP
    · rcases get_setTile_cases ts b b c.toNat r.toNat 0 col row with h | h
      · right; exact h
      · rw [h]; exact hP

/-- A spent-or-air cell yields null from `hitBlock` and the state is
untouched. -/
theorem hitBlock_spent_noop (L : LevelState) (col row : ℤ)
    (hP : L.get col row = T_QUSED ∨ L.get col row = T_AIR) :
    hitBlock L col row = (none, L) := by
  rw [hitBlock]
  rcases hP with h | h <;>
    simp [h, T_QUSED, T_AIR, T_QBLOCK, T_BRICK]

/-- C9: within a level instance a spent question block never reverts:
hitting a QUSED cell returns null and leaves the level unchanged, and after
any sequence of grid mutations (block hits, brick breaks) the cell is still
QUSED or has become AIR — never QBLOCK again — and hitting it still yields
null. -/
theorem qused_never_reverts (L : LevelState) (col row : ℤ) (ops : List GridOp)
    (hq : L.get col row = T_QUSED) :
    hitBlock L col row = (none, L) ∧
    ((ops.foldl applyGridOp L).get col row = T_QUSED ∨
      (ops.foldl applyGridOp L).get col row = T_AIR) ∧
    (hitBlock (ops.foldl applyGridOp L) col row).1 = none := by
  have hinvariant : ∀ (M : LevelState), (M.get col row = T_QUSED ∨ M.get col row = T_AIR) →
      ((ops.foldl applyGridOp M).get col row = T_QUSED ∨
        (ops.foldl applyGridOp M).get col row = T_AIR) := by
    induction ops with
    | nil => intro M hM; exact hM
    | cons op t ih =>
      intro M hM
      rw [List.foldl_cons]
      exact ih (applyGridOp M op) (gridOp_preserves_spent M col row hM op)
  have hfinal := hinvariant L (Or.inl hq)
  refine ⟨hitBlock_spent_noop L col row (Or.inl hq), hfinal, ?_⟩
  rw [hitBlock_spent_noop _ col row hfinal]

/-- Witness for C9: a one-cell grid holding a spent block, hit again and
struck by a stray brick-break event — it never becomes a question block
again and yields nothing. -/
theorem qused_never_reverts_witness :
    hitBlock ⟨[[4]], []⟩ 0 0 = (none, ⟨[[4]], []⟩) ∧
    (([GridOp.hit 0 0, GridOp.brickBreak 0 0].foldl applyGridOp ⟨[[4]], []⟩).get 0 0 = T_QUSED ∨
      (([GridOp.hit 0 0, GridOp.brickBreak 0 0].foldl applyGridOp ⟨[[4]], []⟩)).get 0 0 = T_AIR) ∧
    (hitBlock ([GridOp.hit 0 0, GridOp.brickBreak 0 0].foldl applyGridOp ⟨[[4]], []⟩) 0 0).1 =
      none :=
  qused_never_reverts ⟨[[4]], []⟩ 0 0 [GridOp.hit 0 0, GridOp.brickBreak 0 0] (by decide)

/-! ### C4: behaviour of the collision resolver for a falling entity -/

theorem mem_intRange (a lo hi : ℤ) : a ∈ intRange lo hi ↔ lo ≤ a ∧ a ≤ hi := by
  simp only [intRange, List.mem_map, List.mem_range]
  constructor
  · rintro ⟨i, hmem, rfl⟩
    omega
  · rintro ⟨h1, h2⟩
    refine ⟨(a - lo).toNat, ?_, ?_⟩ <;> omega

theorem mem_scanCells (cl : ℤ × ℤ) (e : Ent) :
    cl ∈ scanCells e ↔
      scanRowMin e ≤ cl.2 ∧ cl.2 ≤ scanRowMax e ∧
      scanColMin e ≤ cl.1 ∧ cl.1 ≤ scanColMax e := by
  obtain ⟨c, r⟩ := cl
  simp only [scanCells, List.mem_flatMap, List.mem_map, mem_intRange, Prod.mk.injEq]
  constructor
  · rintro ⟨row, ⟨h1, h2⟩, col, ⟨h3, h4⟩, rfl, rfl⟩
    exact ⟨h1, h2, h3, h4⟩
  · rintro ⟨h1, h2, h3, h4⟩
    exact ⟨r, ⟨h1, h2⟩, c, ⟨h3, h4⟩, rfl, rfl⟩

/-- A nonempty integer range starts at its lower bound. -/
theorem intRange_cons (lo hi : ℤ) (h : lo ≤ hi) :
    intRange lo hi = lo :: intRange (lo + 1) hi := by
  have hn : (hi + 1 - lo).toNat = (hi + 1 - (lo + 1)).toNat + 1 := by omega
  rw [intRange, hn, List.range_succ_eq_map, List.map_cons, List.map_map]
  congr 1
  · simp
  · rw [intRange]
    apply List.map_congr_left
    intro i _
    simp only [Function.comp_apply, Nat.succ_eq_add_one]
    push_cast
    ring

/-- An integer range splits at an interior point. -/
theorem intRange_append (lo mid hi : ℤ) (h1 : lo ≤ mid) (h2 : mid ≤ hi + 1) :
    intRange lo hi = intRange lo (mid - 1) ++ intRange mid hi := by
  have hn : (hi + 1 - lo).toNat = (mid - 1 + 1 - lo).toNat + (hi + 1 - mid).toNat := by omega
  rw [intRange, hn, List.range_add, List.map_append]
  congr 1
  rw [intRange, List.map_map]
  apply List.map_congr_left
  intro i _
  simp only [Function.comp_apply]
  push_cast
  omega

theorem intRange_split (lo hi t : ℤ) (h1 : lo ≤ t) (h2 : t ≤ hi) :
    intRange lo hi = intRange lo (t - 1) ++ t :: intRange (t + 1) hi := by
  rw [intRange_append lo t hi h1 (by omega), intRange_cons t hi h2]

/-- Scanning cells that hold no solid tile changes nothing (either axis). -/
theorem foldl_axisStep_no_solid (L : LevelState) (axis : Axis) (cells : List (ℤ × ℤ))
    (p : Ent × List (ℤ × ℤ))
    (h : ∀ cl ∈ cells, isSolidTile (L.get cl.1 cl.2) = false) :
    cells.foldl (axisStep L axis) p = p := by
  induction cells generalizing p with
  | nil => rfl
  | cons cl t ih =>
    rw [List.foldl_cons]
    have hcl := h cl (List.mem_cons_self _ _)
    rw [axisStep, if_pos (by simp [hcl])]
    exact ih p (fun u hu => h u (List.mem_cons_of_mem _ hu))

/-- Once vertical velocity is zero the y scan is inert: neither the
descending nor the ascending branch fires on any further cell. -/
theorem foldl_axisStepY_vy_zero (L : LevelState) (cells : List (ℤ × ℤ))
    (p : Ent × List (ℤ × ℤ)) (hvy : p.1.vy = 0) :
    cells.foldl (axisStep L Axis.y) p = p := by
  induction cells generalizing p with
  | nil => rfl
  | cons cl t ih =>
    rw [List.foldl_cons]
    have hstep : axisStep L Axis.y p cl = p := by
      rw [axisStep]
      split
      · rfl
      · simp only
        rw [if_neg (by rw [hvy]; exact lt_irrefl 0), if_neg (by rw [hvy]; exact lt_irrefl 0)]
    rw [hstep]
    exact ih p hvy

/-- The y scan over cells laid out as (clear prefix, first solid cell,
anything after): a falling entity snaps its bottom to the top edge of that
first solid cell, zeroes `vy`, and sets `onGround`; later cells are inert. -/
theorem foldl_axisStepY_split (L : LevelState) (pre post : List (ℤ × ℤ)) (c0 r0 : ℤ)
    (e : Ent) (bh : List (ℤ × ℤ))
    (hpre : ∀ cl ∈ pre, isSolidTile (L.get cl.1 cl.2) = false)
    (hsolid : isSolidTile (L.get c0 r0) = true)
    (hvy : 0 < e.vy) :
    (pre ++ (c0, r0) :: post).foldl (axisStep L Axis.y) (e, bh) =
      ({ e with y := r0 * TILE - e.h, vy := 0, onGround := true }, bh) := by
  rw [List.foldl_append, foldl_axisStep_no_solid L Axis.y pre (e, bh) hpre, List.foldl_cons]
  have hstep : axisStep L Axis.y (e, bh) (c0, r0) =
      ({ e with y := r0 * TILE - e.h, vy := 0, onGround := true }, bh) := by
    rw [axisStep, if_neg (by simp [hsolid])]
    simp only
    rw [if_pos hvy]
  rw [hstep]
  exact foldl_axisStepY_vy_zero L post _ rfl

/-- C4 (amended): consider a falling entity (`vy > 0`) whose x pass scans
only clear cells, and let `(c0, r0)` be the first solid cell — topmost row
first, then leftmost column — scanned by the y pass after the vertical
move.  `resolveEntity` leaves the entity's bottom edge exactly at that
tile's top edge `r0 * TILE`, zeroes the vertical velocity and sets
`onGround`.  (The bottom edge lands on the FIRST overlapped solid tile;
other overlapped solid tiles, e.g. a second row directly below, do not get
this property — see the counterexample to the claim as stated.) -/
theorem resolveEntity_falling_lands_on_first_solid (L : LevelState) (e : Ent) (c0 r0 : ℤ)
    (hvy : 0 < e.vy)
    (hX : ∀ c r : ℤ,
      scanColMin { e with x := e.x + e.vx } ≤ c → c ≤ scanColMax { e with x := e.x + e.vx } →
      scanRowMin { e with x := e.x + e.vx } ≤ r → r ≤ scanRowMax { e with x := e.x + e.vx } →
      isSolidTile (L.get c r) = false)
    (hc0 : scanColMin { e with x := e.x + e.vx, y := e.y + e.vy } ≤ c0 ∧
      c0 ≤ scanColMax { e with x := e.x + e.vx, y := e.y + e.vy })
    (hr0 : scanRowMin { e with x := e.x + e.vx, y := e.y + e.vy } ≤ r0 ∧
      r0 ≤ scanRowMax { e with x := e.x + e.vx, y := e.y + e.vy })
    (hsolid : isSolidTile (L.get c0 r0) = true)
    (hrowsBefore : ∀ r c : ℤ,
      scanRowMin { e with x := e.x + e.vx, y := e.y + e.vy } ≤ r → r < r0 →
      scanColMin { e with x := e.x + e.vx, y := e.y + e.vy } ≤ c →
      c ≤ scanColMax { e with x := e.x + e.vx, y := e.y + e.vy } →
      isSolidTile (L.get c r) = false)
    (hcolsBefore : ∀ c : ℤ,
      scanColMin { e with x := e.x + e.vx, y := e.y + e.vy } ≤ c → c < c0 →
      isSolidTile (L.get c r0) = false) :
    (resolveEntity L e).1.y + e.h = r0 * TILE ∧
    (resolveEntity L e).1.vy = 0 ∧
    (resolveEntity L e).1.onGround = true := by
  set eX : Ent := { e with x := e.x + e.vx } with heX
  set eY : Ent := { e with x := e.x + e.vx, y := e.y + e.vy } with heY
  have hxpass : resolveAxis L Axis.x (eX, []) = (eX, []) := by
    rw [resolveAxis]
    exact foldl_axisStep_no_solid L Axis.x (scanCells eX) (eX, [])
      (fun cl hcl => by
        rw [mem_scanCells] at hcl
        exact hX cl.1 cl.2 hcl.2.2.1 hcl.2.2.2 hcl.1 hcl.2.1)
  have hstep1 : resolveEntity L e = resolveAxis L Axis.y (eY, []) := by
    rw [resolveEntity, if_neg (not_lt.mpr (le_of_lt hvy))]
    show resolveAxis L Axis.y
        ({ (resolveAxis L Axis.x (eX, [])).1 with
            y := (resolveAxis L Axis.x (eX, [])).1.y + (resolveAxis L Axis.x (eX, [])).1.vy },
          (resolveAxis L Axis.x (eX, [])).2) = resolveAxis L Axis.y (eY, [])
    rw [hxpass]
  have hsplit : scanCells eY =
      ((intRange (scanRowMin eY) (r0 - 1)).flatMap
        (fun row => (intRange (scanColMin eY) (scanColMax eY)).map (fun col => (col, row))) ++
       (intRange (scanColMin eY) (c0 - 1)).map (fun col => (col, r0))) ++
      (c0, r0) ::
      ((intRange (c0 + 1) (scanColMax eY)).map (fun col => (col, r0)) ++
       (intRange (r0 + 1) (scanRowMax eY)).flatMap
        (fun row => (intRange (scanColMin eY) (scanColMax eY)).map (fun col => (col, row)))) := by
    rw [scanCells, intRange_split (scanRowMin eY) (scanRowMax eY) r0 hr0.1 hr0.2]
    rw [List.flatMap_append, List.flatMap_cons]
    rw [intRange_split (scanColMin eY) (scanColMax eY) c0 hc0.1 hc0.2]
    rw [List.map_append, List.map_cons]
    simp only [List.append_assoc, List.cons_append]
  have hpre : ∀ cl ∈
      ((intRange (scanRowMin eY) (r0 - 1)).flatMap
        (fun row => (intRange (scanColMin eY) (scanColMax eY)).map (fun col => (col, row))) ++
       (intRange (scanColMin eY) (c0 - 1)).map (fun col => (col, r0))),
      isSolidTile (L.get cl.1 cl.2) = false := by
    intro cl hcl
    rcases List.mem_append.mp hcl with h | h
    · rw [List.mem_flatMap] at h
      obtain ⟨row, hrow, hmem⟩ := h
      rw [mem_intRange] at hrow
      rw [List.mem_map] at hmem
      obtain ⟨col, hcol, rfl⟩ := hmem
      rw [mem_intRange] at hcol
      exact hrowsBefore row col hrow.1 (by omega) hcol.1 hcol.2
    · rw [List.mem_map] at h
      obtain ⟨col, hcol, rfl⟩ := h
      rw [mem_intRange] at hcol
      exact hcolsBefore col hcol.1 (by omega)
  have hvyY : 0 < eY.vy := hvy
  rw [hstep1, resolveAxis]
  show ((scanCells eY).foldl (axisStep L Axis.y) (eY, [])).1.y + e.h = r0 * TILE ∧ _ ∧ _
  rw [hsplit, foldl_axisStepY_split L _ _ c0 r0 eY [] hpre hsolid hvyY]
  refine ⟨?_, rfl, rfl⟩
  show r0 * TILE - eY.h + e.h = r0 * TILE
  show r0 * TILE - e.h + e.h = r0 * TILE
  ring

set_option maxRecDepth 8000 in
/-- Counterexample to C4 as stated: the tile T = (col 0, row 3) is solid
and the falling entity's box would intersect it after velocity is applied,
yet `resolveEntity` does **not** leave the bottom edge at T's top edge
(3·TILE = 96): the resolver snaps to the topmost overlapped solid tile
(row 2), leaving the bottom edge at 64. -/
theorem resolveEntity_falling_counterexample :
    0 < c4Ent.vy ∧
    isSolidTile (c4Level.get 0 3) = true ∧
    overlaps ⟨c4Ent.x + c4Ent.vx, c4Ent.y + c4Ent.vy, c4Ent.w, c4Ent.h⟩
      ⟨0 * TILE, 3 * TILE, TILE, TILE⟩ = true ∧
    (resolveEntity c4Level c4Ent).1.y + c4Ent.h ≠ 3 * TILE := by
  refine ⟨by norm_num [c4Ent], by decide, ?_, ?_⟩
  · norm_num [overlaps, c4Ent, TILE]
  · norm_num [resolveEntity, resolveAxis, scanCells, scanColMin, scanColMax, scanRowMin,
      scanRowMax, intRange, axisStep, isSolidTile, SOLID_TILES, LevelState.get, nthD, TILE,
      c4Level, c4Ent, List.range_succ, List.foldl, List.flatMap]

set_option maxRecDepth 8000 in
/-- Witness for C4 (amended): on the concrete stacked-tile level the
resolver lands the falling entity exactly on the first (topmost) solid
tile's top edge, row 2, with `vy = 0` and `onGround` set. -/
theorem resolveEntity_falling_lands_on_first_solid_witness :
    (resolveEntity c4Level c4Ent).1.y + c4Ent.h = 2 * TILE ∧
    (resolveEntity c4Level c4Ent).1.vy = 0 ∧
    (resolveEntity c4Level c4Ent).1.onGround = true := by
  refine resolveEntity_falling_lands_on_first_solid c4Level c4Ent 0 2
    (by norm_num [c4Ent]) ?_ ?_ ?_ (by decide) ?_ ?_
  · intro c r h1 h2 h3 h4
    norm_num [scanColMin, scanColMax, scanRowMin, scanRowMax, c4Ent, TILE] at h1 h2 h3 h4
    have hc : c = 0 := le_antisymm h2 h1
    have hr : r = 0 ∨ r = 1 := by omega
    subst hc
    rcases hr with hr | hr <;> subst hr <;> decide
  · constructor <;> norm_num [scanColMin, scanColMax, c4Ent, TILE]
  · constructor <;> norm_num [scanRowMin, scanRowMax, c4Ent, TILE]
  · intro r c h1 h2 h3 h4
    norm_num [scanRowMin, c4Ent, TILE] at h1
    omega
  · intro c h1 h2
    norm_num [scanColMin, c4Ent, TILE] at h1
    omega

end MarioOnline
